import Mathlib

/-!
Verification development for the `fin_review` analytics core.

Shallow embedding conventions:
* pandas/numpy arithmetic over floats is embedded over `ℚ` (exact arithmetic);
  none of the verified properties depend on floating-point rounding.
* DataFrames become lists of structures; a groupby/aggregate becomes an
  explicit fold or filter over those lists.
* The z-score comparison `|z| > t` (with `z = dev / std`, `std = √(ss/(n-1))`)
  is embedded squared-out as `dev^2 * (n-1) > t^2 * ss`, which is equivalent
  whenever `ss > 0` and `t ≥ 0`; the bridging lemma `zscore_sq_iff` below
  proves this equivalence over `ℝ`, so the rational embedding is faithful.
* Python's `sorted` is a stable sort; so is `List.insertionSort`, and a stable
  sort's output is determined by the key function, so the embeddings of the
  sorts in `anomalies.py` use `List.insertionSort`.
-/

/-! ## Ratio analyzer: `fin_review/analytics/ratio_analyzer.py` -/

/-- Threshold table of one ratio, from `FinancialRatioAnalyzer.ratio_configs`
(the `critical` entry exists in the source dict but is never read by
`_determine_status`). -/
structure Thresholds where
  excellent : ℚ
  good : ℚ
  warning : ℚ
  critical : ℚ
deriving Repr, DecidableEq

/-- `FinancialRatioAnalyzer._determine_status`: descending check of the value
against the excellent/good/warning thresholds. -/
def determineStatus (value : ℚ) (t : Thresholds) : String :=
  if t.excellent ≤ value then "excellent"
  else if t.good ≤ value then "good"
  else if t.warning ≤ value then "warning"
  else "critical"

/-- Numeric rank of a status tier, for stating monotonicity
(excellent = 3 > good = 2 > warning = 1 > critical = 0). -/
def statusRank (s : String) : ℕ :=
  if s = "excellent" then 3
  else if s = "good" then 2
  else if s = "warning" then 1
  else 0

/-- `ratio_configs['debt_to_equity_ratio']['thresholds']`:
excellent 0.5, good 1.5, warning 2.0, critical 3.0. -/
def debtToEquityThresholds : Thresholds := ⟨1/2, 3/2, 2, 3⟩

/-- `ratio_configs['debt_ratio']['thresholds']`:
excellent 0.3, good 0.5, warning 0.7, critical 0.8. -/
def debtRatioThresholds : Thresholds := ⟨3/10, 1/2, 7/10, 4/5⟩

/-- `ratio_configs['current_ratio']['thresholds']`:
excellent 2.0, good 1.5, warning 1.0, critical 0.5. -/
def currentRatioThresholds : Thresholds := ⟨2, 3/2, 1, 1/2⟩

lemma statusRank_determineStatus (v : ℚ) (t : Thresholds) :
    statusRank (determineStatus v t) =
      if t.excellent ≤ v then 3 else if t.good ≤ v then 2
      else if t.warning ≤ v then 1 else 0 := by
  unfold determineStatus statusRank
  split_ifs <;> simp_all

/-- Monotonicity of `_determine_status` in the value, for any threshold
table: each branch guard `v ≥ threshold` is monotone and the branches are
tried from the highest tier downward. -/
lemma determineStatus_mono (t : Thresholds) {v₁ v₂ : ℚ} (h : v₁ ≤ v₂) :
    statusRank (determineStatus v₁ t) ≤ statusRank (determineStatus v₂ t) := by
  rw [statusRank_determineStatus, statusRank_determineStatus]
  have he : t.excellent ≤ v₁ → t.excellent ≤ v₂ := fun hh => hh.trans h
  have hg : t.good ≤ v₁ → t.good ≤ v₂ := fun hh => hh.trans h
  have hw : t.warning ≤ v₁ → t.warning ≤ v₂ := fun hh => hh.trans h
  split_ifs <;> first | omega | simp_all

/-! ## Statement synthesis: `_create_balance_sheet`,
`_create_income_statement`, `_create_cash_flow_statement` -/

/-- One row of the `groupby(['ABCOTD', 'bucket']).agg({'amount': 'sum'})`
aggregate that `_prepare_financial_statements` feeds into the three
statement builders. -/
structure AggRow where
  abcotd : String
  bucket : String
  amount : ℚ
deriving Repr, DecidableEq

/-- Sum of `amount` over the aggregated rows whose ABCOTD tag is in `tags`
(the `aggregated[aggregated['ABCOTD'].isin([...])]['amount'].sum()` idiom). -/
def sumTags (agg : List AggRow) (tags : List String) : ℚ :=
  ((agg.filter (fun r => r.abcotd ∈ tags)).map (·.amount)).sum

/-- Pseudo balance sheet produced by `_create_balance_sheet`. -/
structure BalanceSheet where
  currentAssets : ℚ
  nonCurrentAssets : ℚ
  totalAssets : ℚ
  currentLiabilities : ℚ
  nonCurrentLiabilities : ℚ
  totalLiabilities : ℚ
  totalEquity : ℚ
deriving Repr

/-- `_create_balance_sheet`: every line is the absolute value of a tag-sum,
and the totals are sums of those absolute values. -/
def createBalanceSheet (agg : List AggRow) : BalanceSheet :=
  let ca := |sumTags agg ["Cash and cash equivalents", "Inventory",
    "Receivables - trade accounts", "Other receivables",
    "Prepaid expenses and accrued income"]|
  let nca := |sumTags agg ["Property, plant, and equipment",
    "Intangibles - other", "Leases - right of use assets",
    "Deferred tax asset or liability"]|
  let cl := |sumTags agg ["Payables - trade accounts", "Other payables",
    "Deferred revenue"]|
  let ncl := |sumTags agg ["Lease liabilities",
    "Deferred tax asset or liability"]|
  { currentAssets := ca
    nonCurrentAssets := nca
    totalAssets := ca + nca
    currentLiabilities := cl
    nonCurrentLiabilities := ncl
    totalLiabilities := cl + ncl
    totalEquity := |sumTags agg ["Equity"]| }

/-- Pseudo income statement produced by `_create_income_statement`. -/
structure IncomeStatement where
  revenue : ℚ
  costOfSales : ℚ
  grossProfit : ℚ
  operatingExpenses : ℚ
  payroll : ℚ
  depreciation : ℚ
  otherExpenses : ℚ
  totalOperatingExpenses : ℚ
  ebit : ℚ
  interestExpense : ℚ
  incomeTax : ℚ
  netIncome : ℚ
deriving Repr

/-- `_create_income_statement`. -/
def createIncomeStatement (agg : List AggRow) : IncomeStatement :=
  let rev := |sumTags agg ["Revenue"]|
  let cos := |sumTags agg ["Cost of sales"]|
  let gp := rev - cos
  let opexp := |sumTags agg ["Operating expenses"]|
  let pay := |sumTags agg ["Payroll"]|
  let dep := |sumTags agg ["Depreciation of property, plant, and equipment",
    "Depreciation/amortization of rights of use assets",
    "Amortization of intangibles - other"]|
  let oth := |sumTags agg ["Other expenses"]|
  let toe := opexp + pay + dep + oth
  let ebit := gp - toe
  let ie := |sumTags agg ["Interest on lease obligations"]|
  let tax := |sumTags agg ["Income tax expense or benefit"]|
  { revenue := rev
    costOfSales := cos
    grossProfit := gp
    operatingExpenses := opexp
    payroll := pay
    depreciation := dep
    otherExpenses := oth
    totalOperatingExpenses := toe
    ebit := ebit
    interestExpense := ie
    incomeTax := tax
    netIncome := ebit - ie - tax }

/-- Pseudo cash-flow statement produced by `_create_cash_flow_statement`. -/
structure CashFlowStatement where
  operatingCashFlow : ℚ
  capitalExpenditures : ℚ
  freeCashFlow : ℚ
  cashAndEquivalents : ℚ
deriving Repr

/-- `_create_cash_flow_statement`: OCF = |revenue| − |operating costs|,
CapEx = 1.5 × |depreciation|, FCF = OCF − CapEx. -/
def createCashFlowStatement (agg : List AggRow) : CashFlowStatement :=
  let rev := |sumTags agg ["Revenue"]|
  let opcost := |sumTags agg ["Cost of sales", "Operating expenses",
    "Payroll", "Other expenses"]|
  let ocf := rev - opcost
  let dep := |sumTags agg ["Depreciation of property, plant, and equipment",
    "Depreciation/amortization of rights of use assets",
    "Amortization of intangibles - other"]|
  let capex := dep * (3/2)
  { operatingCashFlow := ocf
    capitalExpenditures := capex
    freeCashFlow := ocf - capex
    cashAndEquivalents := |sumTags agg ["Cash and cash equivalents"]| }

/-! ## Going-concern scoring -/

/-- The fields of a `RatioResult` that the going-concern scoring reads. -/
structure RatioOutcome where
  category : String
  status : String
  applicable : Bool
deriving Repr, DecidableEq

/-- Status-to-points mapping shared by the three `_calculate_*_score`
methods: excellent 90, good 75, warning 50, anything else (critical) 25. -/
def statusPoints (s : String) : ℚ :=
  if s = "excellent" then 90
  else if s = "good" then 75
  else if s = "warning" then 50
  else 25

/-- Shared body of `_calculate_liquidity_score`, `_calculate_solvency_score`
and `_calculate_cash_flow_score` (the three Python methods are identical up
to the category string): filter to applicable ratios of the category,
return 50 when none remain, otherwise the mean of their points. -/
def categoryScore (cat : String) (ratios : List RatioOutcome) : ℚ :=
  let rs := ratios.filter (fun r => r.category = cat ∧ r.applicable)
  if rs.isEmpty then 50
  else ((rs.map (fun r => statusPoints r.status)).sum) / rs.length

/-- `_calculate_liquidity_score`. -/
def calculateLiquidityScore (ratios : List RatioOutcome) : ℚ :=
  categoryScore "Liquidity" ratios

/-- `_calculate_solvency_score`. -/
def calculateSolvencyScore (ratios : List RatioOutcome) : ℚ :=
  categoryScore "Solvency" ratios

/-- `_calculate_cash_flow_score`. -/
def calculateCashFlowScore (ratios : List RatioOutcome) : ℚ :=
  categoryScore "Cash Flow" ratios

/-- `_determine_overall_status`: average the three sub-scores and apply the
80/60/40 tier boundaries. -/
def determineOverallStatus (liquidity solvency cashFlow : ℚ) : String :=
  let overall := (liquidity + solvency + cashFlow) / 3
  if 80 ≤ overall then "strong"
  else if 60 ≤ overall then "adequate"
  else if 40 ≤ overall then "concerning"
  else "critical"

/-! ## Normalizer: `fin_review/transformers/normalizer.py` -/

/-- One row of the mapping table (`mapping_df`), as read by
`DataNormalizer._merge_mapping`. -/
structure MappingRow where
  gl_account : String
  bucket : String
  type : String
deriving Repr, DecidableEq

/-- One incoming transaction row, restricted to the fields
`_merge_mapping` reads and writes. -/
structure TransRow where
  gl_account : String
deriving Repr, DecidableEq

/-- A canonical row after `_merge_mapping`: the transaction plus the derived
classification columns. -/
structure CanonRow where
  gl_account : String
  bucket : String
  type : String
  is_mapped : Bool
deriving Repr, DecidableEq

/-- The `mapping_dict` built by iterating `mapping_df.iterrows()`: a Python
dict assignment per row, so a later row with the same `gl_account`
overwrites an earlier one. -/
def mappingDict (mapping : List MappingRow) : String → Option MappingRow :=
  mapping.foldl (fun acc r => fun g => if g = r.gl_account then some r else acc g)
    (fun _ => none)

/-- `_merge_mapping` applied to one transaction row: bucket defaults to
`"Unmapped"`, type to `"Other"`, and `is_mapped` is the comparison
`bucket != 'Unmapped'`. -/
def mergeMappingRow (mapping : List MappingRow) (t : TransRow) : CanonRow :=
  let b := match mappingDict mapping t.gl_account with
    | some r => r.bucket
    | none => "Unmapped"
  let ty := match mappingDict mapping t.gl_account with
    | some r => r.type
    | none => "Other"
  { gl_account := t.gl_account, bucket := b, type := ty,
    is_mapped := b ≠ "Unmapped" }

/-- `_merge_mapping` over the whole transaction table. -/
def mergeMapping (mapping : List MappingRow) (ts : List TransRow) : List CanonRow :=
  ts.map (mergeMappingRow mapping)

/-- Whether a gl_account occurs as a key of the mapping table. -/
def occursInMapping (mapping : List MappingRow) (g : String) : Bool :=
  mapping.any (fun r => r.gl_account = g)

lemma mappingDict_eq_none_iff (mapping : List MappingRow) (g : String) :
    mappingDict mapping g = none ↔ occursInMapping mapping g = false := by
  unfold mappingDict occursInMapping
  induction mapping using List.reverseRecOn with
  | nil => simp
  | append_singleton l r ih =>
      simp only [List.foldl_append, List.foldl_cons, List.foldl_nil,
        List.any_append, List.any_cons, List.any_nil]
      by_cases hg : g = r.gl_account
      · have hgr : r.gl_account = g := hg.symm
        rw [if_pos hg]
        simp [hgr]
      · have hgr : r.gl_account ≠ g := fun h => hg h.symm
        rw [if_neg hg]
        simp [hgr, ih]

lemma mappingDict_mem {mapping : List MappingRow} {g : String} {r : MappingRow}
    (h : mappingDict mapping g = some r) : r ∈ mapping ∧ r.gl_account = g := by
  unfold mappingDict at h
  induction mapping using List.reverseRecOn with
  | nil => simp at h
  | append_singleton l x ih =>
      simp only [List.foldl_append, List.foldl_cons, List.foldl_nil] at h
      by_cases hg : g = x.gl_account
      · simp only [hg, if_pos rfl] at h
        cases h
        exact ⟨List.mem_append_right _ (List.mem_singleton.mpr rfl), hg.symm⟩
      · rw [if_neg hg] at h
        obtain ⟨hm, he⟩ := ih h
        exact ⟨List.mem_append_left _ hm, he⟩

/-! Overdue computation, `DataNormalizer._calculate_overdue`.
Dates are embedded as integer day numbers; subtracting two dates gives the
day difference, matching `(a - b).dt.days` on day-resolution timestamps. -/

/-- Input row for `_calculate_overdue`: posting date, due date and open
amount as day numbers / rational amount.  The presence of the `due_date`
and `open_amount` *columns* is table-wide in pandas, so it is passed
separately as flags; when `hasDueCol` is false the per-row `due_date`
values are never read. -/
structure OverdueRow where
  posting_date : ℤ
  due_date : ℤ
  open_amount : Option ℚ
deriving Repr, DecidableEq

/-- Output of `_calculate_overdue` for one row. -/
structure OverdueOut where
  days_overdue : ℤ
  is_overdue : Bool
deriving Repr, DecidableEq

/-- Maximum posting date of the dataset (`df['posting_date'].max()`);
`0` for an empty table (pandas would give NaT, and the callers below are
only ever invoked on nonempty tables). -/
def maxPostingDate (rows : List OverdueRow) : ℤ :=
  (rows.map (·.posting_date)).foldl max 0

/-- `DataNormalizer._calculate_overdue`: when the `due_date` column is
absent the code sets `days_overdue = 0` and `is_overdue = False` and
returns; otherwise `days_overdue = max posting_date − due_date`, and
`is_overdue` is `days_overdue > threshold`, additionally requiring a
present, nonzero `open_amount` when that column exists. -/
def calculateOverdue (overdueThreshold : ℤ) (hasDueCol hasOpenCol : Bool)
    (rows : List OverdueRow) : List OverdueOut :=
  if hasDueCol = false then
    rows.map (fun _ => { days_overdue := 0, is_overdue := false })
  else
    let currentDate := maxPostingDate rows
    rows.map (fun r =>
      let d := currentDate - r.due_date
      let over := overdueThreshold < d
      let over := if hasOpenCol then
          over ∧ r.open_amount.isSome ∧ r.open_amount ≠ some 0
        else over
      { days_overdue := d, is_overdue := over })

/-! ## Aging engine: `fin_review/analytics/aging.py` -/

/-- A configured aging bucket `[min_days, max_days, label]`. -/
structure AgingBucket where
  minDays : ℤ
  maxDays : ℤ
  label : String
deriving Repr, DecidableEq

/-- Whether `days_overdue` falls in the bucket's inclusive range, the mask
`(d >= min_days) & (d <= max_days)` of `_assign_aging_buckets`. -/
def inBucket (b : AgingBucket) (d : ℤ) : Prop :=
  b.minDays ≤ d ∧ d ≤ b.maxDays

instance (b : AgingBucket) (d : ℤ) : Decidable (inBucket b d) := by
  unfold inBucket; infer_instance

/-- The bucket-assignment loop of `_assign_aging_buckets`: the label starts
as `"Unknown"` and each configured bucket in order overwrites it where its
range matches. -/
def assignBucketLabel (buckets : List AgingBucket) (d : ℤ) : String :=
  buckets.foldl (fun acc b => if inBucket b d then b.label else acc) "Unknown"

/-- `AgingAnalyzer._assign_aging_buckets` fallback for the days-overdue
values when the frame has no `days_overdue` column and no usable
`due_date` data: synthetic due date `posting_date + 30`, so
`days_overdue = current_date − (posting_date + 30)` (with a warning). -/
def agingSyntheticDaysOverdue (currentDate postingDate : ℤ) : ℤ :=
  currentDate - (postingDate + 30)

/-- `_assign_aging_buckets` on a frame that carries `days_overdue` (the
normal path after `normalize()`): label every row, dropping none. -/
def assignAgingBuckets (buckets : List AgingBucket) (daysOverdue : List ℤ) :
    List String :=
  daysOverdue.map (assignBucketLabel buckets)

/-! ## KPI engine growth metrics: `KPICalculator._calculate_growth_metrics`
The function receives the monthly KPI frame sorted by `year_month`; here it
is embedded as the sorted monthly `revenue` and `opex` series.  Percentage
changes are kept symbolic as (previous, current) pairs and the CAGR as its
(first, last, periods) arguments: the emission logic — which is what the
spec constrains — is exact, while the float quotient/power that pandas
would produce on those arguments is not re-evaluated (note pandas yields
`inf`/`NaN` rather than an error on a zero/missing base, so presence of a
metric is unaffected). -/

/-- A month-over-month or year-over-year percentage change, recorded as the
(previous, current) pair it is computed from. -/
structure PctChange where
  previous : ℚ
  current : ℚ
deriving Repr, DecidableEq

/-- The arguments of the CAGR formula
`((last/first) ** (1/periods) - 1) * 100`. -/
structure CagrArgs where
  first : ℚ
  last : ℚ
  periods : ℚ
deriving Repr, DecidableEq

/-- The growth-metric entries that `_calculate_growth_metrics` may put into
its result dict; `none` means the key is absent.  The source also emits
`avg_*` companions of the `latest_*` keys under exactly the same
conditions, so they are not modeled separately. -/
structure GrowthMetrics where
  latest_revenue_mom : Option PctChange
  latest_revenue_yoy : Option PctChange
  revenue_cagr : Option CagrArgs
  latest_opex_mom : Option PctChange
deriving Repr, DecidableEq

/-- `KPICalculator._calculate_growth_metrics`: early-return with an empty
dict below 2 months; month-over-month always emitted past that; YoY only
with ≥ 13 months (`pct_change(periods=12)` on the last row, i.e. the rows
12 apart); CAGR only with ≥ 12 months and strictly positive first and last
revenue, with `periods = months / 12`. -/
def calculateGrowthMetrics (revenue opex : List ℚ) : GrowthMetrics :=
  if revenue.length < 2 then
    { latest_revenue_mom := none, latest_revenue_yoy := none,
      revenue_cagr := none, latest_opex_mom := none }
  else
    let n := revenue.length
    let momRev : Option PctChange :=
      some { previous := revenue.getD (n - 2) 0, current := revenue.getD (n - 1) 0 }
    let yoyRev : Option PctChange :=
      if 13 ≤ n then
        some { previous := revenue.getD (n - 13) 0, current := revenue.getD (n - 1) 0 }
      else none
    let cagr : Option CagrArgs :=
      if 12 ≤ n then
        let firstValue := revenue.getD 0 0
        let lastValue := revenue.getD (n - 1) 0
        if 0 < firstValue ∧ 0 < lastValue then
          some { first := firstValue, last := lastValue, periods := (n : ℚ) / 12 }
        else none
      else none
    let momOpex : Option PctChange :=
      some { previous := opex.getD (n - 2) 0, current := opex.getD (n - 1) 0 }
    { latest_revenue_mom := momRev, latest_revenue_yoy := yoyRev,
      revenue_cagr := cagr, latest_opex_mom := momOpex }

/-! ## Anomaly engine: `fin_review/analytics/anomalies.py`
The detectors are embedded over the monthly table
`df.groupby(['year_month', 'bucket', 'type'])['amount'].sum()` that all
three methods share.  `detect_all` is embedded with
`use_isolation_forest = False` (the sklearn `IsolationForest` detector is
an external randomized model and is not modeled); the `_explain_anomaly`
pass only fills the `explanation`/`top_contributors` fields, which are not
modeled because they do not affect flagging, severity or deduplication. -/

/-- Severity labels produced by `_determine_severity`
(the strings `'low'`, `'medium'`, `'high'`). -/
inductive Sev where
  | low
  | medium
  | high
deriving Repr, DecidableEq

/-- The `severity_order = {'high': 0, 'medium': 1, 'low': 2}` dict used by
both `_deduplicate_anomalies` and the final sort of `detect_all`. -/
def severityOrder : Sev → ℕ
  | .high => 0
  | .medium => 1
  | .low => 2

/-- One row of the monthly `(year_month, bucket, type) ↦ sum(amount)`
table. -/
structure MRow where
  ym : String
  bucket : String
  ty : String
  amount : ℚ
deriving Repr, DecidableEq

/-- An `Anomaly` record (without the `explanation`/`top_contributors`
fields filled in later by `_explain_anomaly`). -/
structure Anom where
  date : String
  bucket : String
  ty : String
  amount : ℚ
  expected : ℚ
  deviation : ℚ
  deviation_pct : ℚ
  severity : Sev
  method : String
deriving Repr, DecidableEq

/-- The flag `|z| > t` of `_detect_zscore_anomalies`, squared out:
with `z = dev / √(ss/(n-1))` (pandas `std` uses `ddof=1`) this is
`dev² · (n−1) > t² · ss`; `zscore_sq_iff` below proves the equivalence. -/
def zscoreExceeds (t dev ss : ℚ) (n : ℕ) : Bool :=
  t ^ 2 * ss < dev ^ 2 * ((n : ℚ) - 1)

/-- `_determine_severity` for method `'zscore'` (`> 4` high, `> 3.5`
medium, else low), squared out like the flag itself. -/
def zSeverity (dev ss : ℚ) (n : ℕ) : Sev :=
  if 16 * ss < dev ^ 2 * ((n : ℚ) - 1) then .high
  else if (49/4) * ss < dev ^ 2 * ((n : ℚ) - 1) then .medium
  else .low

/-- Equivalence of the squared-out z-score comparison with the direct one:
for positive sum of squared deviations `ss` and `n−1 > 0`,
`|dev|/√(ss/(n-1)) > t  ↔  dev²·(n−1) > t²·ss`. -/
lemma zscore_sq_iff (dev ss t nm1 : ℝ) (hss : 0 < ss) (ht : 0 ≤ t)
    (hn : 0 < nm1) :
    t < |dev| / Real.sqrt (ss / nm1) ↔ t ^ 2 * ss < dev ^ 2 * nm1 := by
  have hsd : 0 < ss / nm1 := div_pos hss hn
  have hs : 0 < Real.sqrt (ss / nm1) := Real.sqrt_pos.mpr hsd
  have h0 : 0 ≤ t * Real.sqrt (ss / nm1) := mul_nonneg ht hs.le
  have e1 : (t * Real.sqrt (ss / nm1)) ^ 2 = t ^ 2 * ss / nm1 := by
    rw [mul_pow, Real.sq_sqrt hsd.le]
    ring
  rw [lt_div_iff₀ hs,
    ← pow_lt_pow_iff_left₀ h0 (abs_nonneg dev) (two_ne_zero), e1, sq_abs,
    div_lt_iff₀ hn]

/-- `_detect_zscore_anomalies` for one bucket's sub-table: skip under 6
rows, skip zero variance, flag `|z| >` threshold and record the anomaly
with `expected = mean` and method `'zscore'`;
`deviation_pct = (amount − mean)/|mean| · 100`, or `0` when `mean = 0`. -/
def detectZscoreBucket (thr : ℚ) (rows : List MRow) : List Anom :=
  if rows.length < 6 then []
  else
    let n := rows.length
    let mean := ((rows.map (·.amount)).sum) / (n : ℚ)
    let ss := (rows.map (fun r => (r.amount - mean) ^ 2)).sum
    if ss = 0 then []
    else
      (rows.filter (fun r => zscoreExceeds thr (r.amount - mean) ss n)).map
        (fun r =>
          { date := r.ym, bucket := r.bucket, ty := r.ty, amount := r.amount,
            expected := mean, deviation := r.amount - mean,
            deviation_pct :=
              if mean ≠ 0 then (r.amount - mean) / |mean| * 100 else 0,
            severity := zSeverity (r.amount - mean) ss n,
            method := "zscore" })

/-- `np.median` / `pd.Series.median`: middle of the ascending sort for odd
length, mean of the two middle values for even length (callers only use it
on tables of at least 6 rows). -/
def medianQ (l : List ℚ) : ℚ :=
  let s := List.insertionSort (· ≤ ·) l
  let n := l.length
  if n % 2 = 1 then s.getD (n / 2) 0
  else (s.getD (n / 2 - 1) 0 + s.getD (n / 2) 0) / 2

/-- The modified z-score `0.6745 · (x − median) / MAD` of
`_detect_mad_anomalies` (`0.6745 = 1349/2000`). -/
def madScore (med mad x : ℚ) : ℚ :=
  (1349/2000) * (x - med) / mad

/-- `_determine_severity` for method `'mad'`: `> 5` high, `> 4` medium,
else low (applied to the absolute score). -/
def madSeverity (score : ℚ) : Sev :=
  if 5 < score then .high
  else if 4 < score then .medium
  else .low

/-- `_detect_mad_anomalies` for one bucket's sub-table: skip under 6 rows,
skip zero MAD, flag `|0.6745·(x − median)/MAD| >` threshold and record the
anomaly with `expected = median` and method `'mad'`. -/
def detectMadBucket (thr : ℚ) (rows : List MRow) : List Anom :=
  if rows.length < 6 then []
  else
    let med := medianQ (rows.map (·.amount))
    let mad := medianQ (rows.map (fun r => |r.amount - med|))
    if mad = 0 then []
    else
      (rows.filter (fun r => thr < |madScore med mad r.amount|)).map
        (fun r =>
          { date := r.ym, bucket := r.bucket, ty := r.ty, amount := r.amount,
            expected := med, deviation := r.amount - med,
            deviation_pct :=
              if med ≠ 0 then (r.amount - med) / |med| * 100 else 0,
            severity := madSeverity |madScore med mad r.amount|,
            method := "mad" })

/-- `monthly['bucket'].unique()`: the distinct bucket names in first-seen
order. -/
def uniqueFirst (l : List String) : List String :=
  l.foldl (fun acc x => if x ∈ acc then acc else acc ++ [x]) []

/-- The shared per-bucket loop of the detectors: for each distinct bucket,
run the detector on that bucket's sub-table and concatenate the results. -/
def groupDetect (det : List MRow → List Anom) (monthly : List MRow) :
    List Anom :=
  ((uniqueFirst (monthly.map (·.bucket))).map
    (fun b => det (monthly.filter (fun r => r.bucket = b)))).flatten

/-- The key `(a.date, a.bucket)` under which `_deduplicate_anomalies`
deduplicates. -/
def anomKey (a : Anom) : String × String := (a.date, a.bucket)

/-- The sort key `(a.date, a.bucket, severity_order[a.severity])` of
`_deduplicate_anomalies`, lexicographically ordered. -/
def dedupSortKey (a : Anom) : String ×ₗ (String ×ₗ ℕ) :=
  toLex (a.date, toLex (a.bucket, severityOrder a.severity))

/-- Sort relation of the deduplication sort. -/
def dedupSortRel (a b : Anom) : Prop := dedupSortKey a ≤ dedupSortKey b

instance : DecidableRel dedupSortRel := fun a b => by
  unfold dedupSortRel
  infer_instance

instance : IsTotal Anom dedupSortRel :=
  ⟨fun a b => le_total (dedupSortKey a) (dedupSortKey b)⟩

instance : IsTrans Anom dedupSortRel :=
  ⟨fun _ _ _ h₁ h₂ => le_trans h₁ h₂⟩

/-- The first-key-wins scan of `_deduplicate_anomalies` over the sorted
list, with the `seen` set of keys. -/
def dedupScan (seen : List (String × String)) : List Anom → List Anom
  | [] => []
  | a :: rest =>
      if anomKey a ∈ seen then dedupScan seen rest
      else a :: dedupScan (anomKey a :: seen) rest

/-- `_deduplicate_anomalies`: stable-sort by
`(date, bucket, severity_order)` — so the highest severity comes first
within a key — then keep the first record per `(date, bucket)` key. -/
def deduplicateAnomalies (l : List Anom) : List Anom :=
  dedupScan [] (List.insertionSort dedupSortRel l)

/-- The final ordering key of `detect_all`:
`(severity_order[a.severity], |a.deviation_pct|)` ascending. -/
def finalSortKey (a : Anom) : ℕ ×ₗ ℚ :=
  toLex (severityOrder a.severity, |a.deviation_pct|)

/-- Final sort relation of `detect_all`. -/
def finalSortRel (a b : Anom) : Prop := finalSortKey a ≤ finalSortKey b

instance : DecidableRel finalSortRel := fun a b => by
  unfold finalSortRel
  infer_instance

/-- `AnomalyDetector.detect_all` with `use_isolation_forest = False`: run
the z-score and MAD detectors, concatenate, deduplicate, and sort by
severity then absolute deviation percentage. -/
def detectAll (thrZ thrM : ℚ) (monthly : List MRow) : List Anom :=
  let anomalies :=
    groupDetect (detectZscoreBucket thrZ) monthly ++
      groupDetect (detectMadBucket thrM) monthly
  List.insertionSort finalSortRel (deduplicateAnomalies anomalies)

/-! ## Theorems for the claims -/

/-- C10: every synthesized statement line listed in the claim — Current
Assets, Non-Current Assets, Current Liabilities, Non-Current Liabilities,
Total Equity, Revenue, Cost of Sales, Interest Expense, Income Tax,
Capital Expenditures, and Cash and Cash Equivalents — is produced through
an absolute value (CapEx as 1.5 × an absolute value), so all of them are
non-negative for every input: a net-negative underlying sum is reported
with positive magnitude. -/
theorem spec_c10_abs_lines_nonneg (agg : List AggRow) :
    0 ≤ (createBalanceSheet agg).currentAssets ∧
    0 ≤ (createBalanceSheet agg).nonCurrentAssets ∧
    0 ≤ (createBalanceSheet agg).currentLiabilities ∧
    0 ≤ (createBalanceSheet agg).nonCurrentLiabilities ∧
    0 ≤ (createBalanceSheet agg).totalEquity ∧
    0 ≤ (createIncomeStatement agg).revenue ∧
    0 ≤ (createIncomeStatement agg).costOfSales ∧
    0 ≤ (createIncomeStatement agg).interestExpense ∧
    0 ≤ (createIncomeStatement agg).incomeTax ∧
    0 ≤ (createCashFlowStatement agg).capitalExpenditures ∧
    0 ≤ (createCashFlowStatement agg).cashAndEquivalents := by
  refine ⟨?_, ?_, ?_, ?_, ?_, ?_, ?_, ?_, ?_, ?_, ?_⟩ <;>
    simp only [createBalanceSheet, createIncomeStatement,
      createCashFlowStatement] <;>
    first
      | exact abs_nonneg _
      | exact mul_nonneg (abs_nonneg _) (by norm_num)

/-- C9: `_determine_status` applies the same ascending value-meets-threshold
check to the lower-is-better leverage ratios: for `debt_to_equity_ratio`
(excellent threshold 0.5) any value ≥ 0.5 — including 4.0 — gets status
`"excellent"`, likewise for `debt_ratio` (excellent threshold 0.3), and the
status rank of both ratios never decreases as the value increases. -/
theorem spec_c9_leverage_excellent :
    (∀ v : ℚ, 1/2 ≤ v → determineStatus v debtToEquityThresholds = "excellent") ∧
    (∀ v : ℚ, 3/10 ≤ v → determineStatus v debtRatioThresholds = "excellent") ∧
    determineStatus 4 debtToEquityThresholds = "excellent" ∧
    (∀ v₁ v₂ : ℚ, v₁ ≤ v₂ →
      statusRank (determineStatus v₁ debtToEquityThresholds) ≤
        statusRank (determineStatus v₂ debtToEquityThresholds) ∧
      statusRank (determineStatus v₁ debtRatioThresholds) ≤
        statusRank (determineStatus v₂ debtRatioThresholds)) := by
  refine ⟨?_, ?_, ?_, fun v₁ v₂ h =>
    ⟨determineStatus_mono _ h, determineStatus_mono _ h⟩⟩
  · intro v hv
    unfold determineStatus debtToEquityThresholds
    rw [if_pos hv]
  · intro v hv
    unfold determineStatus debtRatioThresholds
    rw [if_pos hv]
  · unfold determineStatus debtToEquityThresholds
    norm_num

/-- Witness for C9 at the concrete leverage value 4.0. -/
theorem spec_c9_witness :
    (1/2 : ℚ) ≤ 4 ∧ determineStatus 4 debtToEquityThresholds = "excellent" :=
  ⟨by norm_num, spec_c9_leverage_excellent.1 4 (by norm_num)⟩

/-- C8: when the thresholds are ordered excellent ≥ good ≥ warning, the
status assigned by `_determine_status` is the highest tier whose threshold
the value meets or exceeds — rank ≥ 3 iff the excellent threshold is met,
rank ≥ 2 iff the good threshold is met, rank ≥ 1 iff the warning threshold
is met — and for v₁ ≤ v₂ the tier of v₂ is never below the tier of v₁. -/
theorem spec_c8_status_highest_tier (t : Thresholds)
    (hge : t.good ≤ t.excellent) (hwg : t.warning ≤ t.good)
    (v v₁ v₂ : ℚ) (hv : v₁ ≤ v₂) :
    (3 ≤ statusRank (determineStatus v t) ↔ t.excellent ≤ v) ∧
    (2 ≤ statusRank (determineStatus v t) ↔ t.good ≤ v) ∧
    (1 ≤ statusRank (determineStatus v t) ↔ t.warning ≤ v) ∧
    statusRank (determineStatus v₁ t) ≤ statusRank (determineStatus v₂ t) := by
  refine ⟨?_, ?_, ?_, determineStatus_mono t hv⟩ <;>
  · rw [statusRank_determineStatus]
    split_ifs <;> constructor <;> intro hh <;>
      first | omega | linarith

/-- Witness for C8 on the current-ratio thresholds (2.0/1.5/1.0) at the
spec's scenario value 2.5, which meets the excellent threshold. -/
theorem spec_c8_witness :
    3 ≤ statusRank (determineStatus (5/2) currentRatioThresholds) :=
  (spec_c8_status_highest_tier currentRatioThresholds
    (by norm_num [currentRatioThresholds])
    (by norm_num [currentRatioThresholds]) (5/2) 0 1 (by norm_num)).1.mpr
    (by norm_num [currentRatioThresholds])

/-- The score/status fields of `_assess_going_concern`'s result. -/
structure Assessment where
  overall_status : String
  liquidity_score : ℚ
  solvency_score : ℚ
  cash_flow_score : ℚ
deriving Repr

/-- `FinancialRatioAnalyzer._assess_going_concern` (score and status
fields): the three category scores and the overall status derived from
them. -/
def assessGoingConcern (ratios : List RatioOutcome) : Assessment :=
  let l := calculateLiquidityScore ratios
  let s := calculateSolvencyScore ratios
  let c := calculateCashFlowScore ratios
  { overall_status := determineOverallStatus l s c,
    liquidity_score := l, solvency_score := s, cash_flow_score := c }

/-- Transcribed from the spec's words for the C4 comparison: points by
status, excellent = 90, good = 75, warning = 50, critical = 25. -/
def specStatusPoints : String → ℚ
  | "excellent" => 90
  | "good" => 75
  | "warning" => 50
  | _ => 25

/-- Transcribed from the spec's words for the C4 comparison: a category
sub-score is the mean of its applicable ratios' points, and 50 when the
category has no applicable ratio. -/
def specSubScore (cat : String) (ratios : List RatioOutcome) : ℚ :=
  let pts := (ratios.filter (fun r => r.applicable ∧ r.category = cat)).map
    (fun r => specStatusPoints r.status)
  if pts = [] then 50 else pts.sum / pts.length

lemma specStatusPoints_eq (s : String) : specStatusPoints s = statusPoints s := by
  unfold specStatusPoints statusPoints
  split <;> simp_all

lemma categoryScore_eq_specSubScore (cat : String) (ratios : List RatioOutcome) :
    categoryScore cat ratios = specSubScore cat ratios := by
  simp only [categoryScore, specSubScore]
  have hf : (ratios.filter (fun r => decide (r.category = cat ∧ r.applicable = true)))
      = (ratios.filter (fun r => decide (r.applicable = true ∧ r.category = cat))) := by
    apply List.filter_congr
    intro r _
    exact decide_eq_decide.mpr and_comm
  have hm : ∀ l : List RatioOutcome,
      (l.map (fun r => statusPoints r.status)) = (l.map (fun r => specStatusPoints r.status)) := by
    intro l
    apply List.map_congr_left
    intro r _
    exact (specStatusPoints_eq r.status).symm
  rw [hf, hm]
  rcases eq_or_ne
      (ratios.filter (fun r => decide (r.applicable = true ∧ r.category = cat))) []
    with hnil | hnil
  · simp [hnil]
  · rw [if_neg (fun hc => hnil (List.isEmpty_iff.mp hc)),
      if_neg (fun hc => hnil (List.map_eq_nil_iff.mp hc)), List.length_map]

/-- C4: the going-concern scoring matches the spec — each of the three
category sub-scores is the mean of its applicable ratios' points under the
excellent = 90 / good = 75 / warning = 50 / critical = 25 mapping (50 when
the category has no applicable ratio), the overall score is the simple
arithmetic mean of the three sub-scores, and the overall status is
`"strong"` iff that mean is ≥ 80, `"adequate"` iff it is in [60, 80),
`"concerning"` iff it is in [40, 60), and `"critical"` iff it is < 40. -/
theorem spec_c4_going_concern_scoring (ratios : List RatioOutcome) :
    (assessGoingConcern ratios).liquidity_score = specSubScore "Liquidity" ratios ∧
    (assessGoingConcern ratios).solvency_score = specSubScore "Solvency" ratios ∧
    (assessGoingConcern ratios).cash_flow_score = specSubScore "Cash Flow" ratios ∧
    (∀ l s c : ℚ,
      ((determineOverallStatus l s c = "strong" ↔ 80 ≤ (l + s + c) / 3) ∧
       (determineOverallStatus l s c = "adequate" ↔
         60 ≤ (l + s + c) / 3 ∧ (l + s + c) / 3 < 80) ∧
       (determineOverallStatus l s c = "concerning" ↔
         40 ≤ (l + s + c) / 3 ∧ (l + s + c) / 3 < 60) ∧
       (determineOverallStatus l s c = "critical" ↔ (l + s + c) / 3 < 40))) := by
  refine ⟨categoryScore_eq_specSubScore _ _, categoryScore_eq_specSubScore _ _,
    categoryScore_eq_specSubScore _ _, ?_⟩
  intro l s c
  unfold determineOverallStatus
  dsimp only
  split_ifs with h1 h2 h3 <;>
    refine ⟨?_, ?_, ?_, ?_⟩ <;> constructor <;> intro hh <;>
    first
      | rfl
      | (exact absurd hh (by decide))
      | (constructor <;> linarith)
      | linarith

/-- C7: `_calculate_growth_metrics` emits the year-over-year change exactly
when at least 13 monthly rows exist, and emits CAGR exactly when at least
12 monthly rows exist and both the first and last revenue values are
strictly positive; whenever CAGR is emitted its arguments are safe — the
base of the root `last/first` is strictly positive (no root of a negative
number), the divisor `first` is nonzero (no division by zero), and the
exponent denominator `periods` is strictly positive. -/
theorem spec_c7_growth_guards (revenue opex : List ℚ) :
    ((calculateGrowthMetrics revenue opex).latest_revenue_yoy.isSome = true ↔
      13 ≤ revenue.length) ∧
    ((calculateGrowthMetrics revenue opex).revenue_cagr.isSome = true ↔
      (12 ≤ revenue.length ∧ 0 < revenue.getD 0 0 ∧
        0 < revenue.getD (revenue.length - 1) 0)) ∧
    (∀ c, (calculateGrowthMetrics revenue opex).revenue_cagr = some c →
      0 < c.first ∧ 0 < c.last ∧ c.first ≠ 0 ∧ 0 < c.last / c.first ∧
        0 < c.periods) := by
  unfold calculateGrowthMetrics
  by_cases hlen : revenue.length < 2
  · rw [if_pos hlen]
    refine ⟨by simp; omega, by simp; omega, by simp⟩
  · rw [if_neg hlen]
    dsimp only
    refine ⟨?_, ?_, ?_⟩
    · by_cases h13 : 13 ≤ revenue.length
      · simp [h13]
      · simp [h13]
    · by_cases h12 : 12 ≤ revenue.length
      · rw [if_pos h12]
        by_cases hpos : 0 < revenue.getD 0 0 ∧ 0 < revenue.getD (revenue.length - 1) 0
        · simp [hpos, h12]
        · simp [hpos, h12]
      · simp [h12]
    · intro c hc
      by_cases h12 : 12 ≤ revenue.length
      · rw [if_pos h12] at hc
        by_cases hpos : 0 < revenue.getD 0 0 ∧ 0 < revenue.getD (revenue.length - 1) 0
        · rw [if_pos hpos] at hc
          cases hc
          refine ⟨hpos.1, hpos.2, ne_of_gt hpos.1, div_pos hpos.2 hpos.1, ?_⟩
          have : (0 : ℚ) < (revenue.length : ℚ) := by
            have : 0 < revenue.length := by omega
            exact_mod_cast this
          positivity
        · rw [if_neg hpos] at hc
          cases hc
      · rw [if_neg h12] at hc
        cases hc

/-- Witness for C7 on a concrete 13-month all-positive revenue series. -/
theorem spec_c7_witness :
    (calculateGrowthMetrics (List.replicate 13 (1 : ℚ))
        (List.replicate 13 (1 : ℚ))).latest_revenue_yoy.isSome = true ∧
    (calculateGrowthMetrics (List.replicate 13 (1 : ℚ))
        (List.replicate 13 (1 : ℚ))).revenue_cagr.isSome = true :=
  ⟨(spec_c7_growth_guards _ _).1.mpr (by decide),
    (spec_c7_growth_guards _ _).2.1.mpr (by refine ⟨by decide, by decide, by decide⟩)⟩

/-- Rows of the bucket-assignment loop that match no configured bucket keep
the initial `"Unknown"` label. -/
lemma assignBucketLabel_of_none (buckets : List AgingBucket) (acc : String)
    (d : ℤ) (h : ∀ b ∈ buckets, ¬ inBucket b d) :
    buckets.foldl (fun a b => if inBucket b d then b.label else a) acc = acc := by
  induction buckets generalizing acc with
  | nil => rfl
  | cons x rest ih =>
      have hx : ¬ inBucket x d := h x (List.mem_cons_self x rest)
      simp only [List.foldl_cons, if_neg hx]
      exact ih acc (fun b hb => h b (List.mem_cons_of_mem x hb))

/-- With pairwise non-overlapping buckets, the loop assigns the label of
the unique bucket containing `d`. -/
lemma assignBucketLabel_of_mem (buckets : List AgingBucket) (acc : String)
    (d : ℤ)
    (hdisj : buckets.Pairwise
      (fun b₁ b₂ => ∀ x : ℤ, ¬(inBucket b₁ x ∧ inBucket b₂ x)))
    {b : AgingBucket} (hb : b ∈ buckets) (hd : inBucket b d) :
    buckets.foldl (fun a c => if inBucket c d then c.label else a) acc
      = b.label := by
  induction buckets generalizing acc with
  | nil => cases hb
  | cons x rest ih =>
      rcases List.pairwise_cons.mp hdisj with ⟨hxrest, hrest⟩
      rcases List.mem_cons.mp hb with hbx | hbr
      · subst hbx
        simp only [List.foldl_cons, if_pos hd]
        exact assignBucketLabel_of_none rest b.label d
          (fun c hc hcd => hxrest c hc d ⟨hd, hcd⟩)
      · simp only [List.foldl_cons]
        by_cases hx : inBucket x d
        · exact absurd ⟨hx, hd⟩ (hxrest b hbr d)
        · rw [if_neg hx]
          exact ih acc hrest hbr

/-- C6: with a pairwise non-overlapping configured bucket list, the aging
assignment labels every row (none is dropped: the output has one label per
input row), the label is the one of the unique configured bucket whose
inclusive `[min_days, max_days]` range contains the row's `days_overdue`,
and it is `"Unknown"` exactly when no configured bucket covers that
value. -/
theorem spec_c6_aging_partition (buckets : List AgingBucket)
    (hdisj : buckets.Pairwise
      (fun b₁ b₂ => ∀ x : ℤ, ¬(inBucket b₁ x ∧ inBucket b₂ x)))
    (days : List ℤ) (d : ℤ) :
    (assignAgingBuckets buckets days).length = days.length ∧
    (∀ b ∈ buckets, inBucket b d → assignBucketLabel buckets d = b.label) ∧
    ((∀ b ∈ buckets, ¬ inBucket b d) → assignBucketLabel buckets d = "Unknown") := by
  refine ⟨List.length_map _ _, ?_, ?_⟩
  · intro b hb hd
    exact assignBucketLabel_of_mem buckets "Unknown" d hdisj hb hd
  · intro h
    exact assignBucketLabel_of_none buckets "Unknown" d h

/-- The default aging-bucket configuration of `AgingAnalyzer.__init__`. -/
def defaultAgingBuckets : List AgingBucket :=
  [⟨0, 0, "Current"⟩, ⟨1, 30, "0-30 days"⟩, ⟨31, 60, "31-60 days"⟩,
    ⟨61, 90, "61-90 days"⟩, ⟨91, 999999, ">90 days"⟩]

/-- Witness for C6 on the default bucket configuration: 45 days overdue is
assigned the `"31-60 days"` bucket. -/
theorem spec_c6_witness :
    assignBucketLabel defaultAgingBuckets 45 = "31-60 days" := by
  have hdisj : defaultAgingBuckets.Pairwise
      (fun b₁ b₂ => ∀ x : ℤ, ¬(inBucket b₁ x ∧ inBucket b₂ x)) := by
    unfold defaultAgingBuckets
    refine List.Pairwise.cons ?_ (List.Pairwise.cons ?_ (List.Pairwise.cons ?_
      (List.Pairwise.cons ?_ (List.pairwise_singleton _ _)))) <;>
      · intro b hb x
        fin_cases hb <;> (simp only [inBucket]; omega)
  exact (spec_c6_aging_partition defaultAgingBuckets hdisj [] 45).2.1
    ⟨31, 60, "31-60 days"⟩ (by simp [defaultAgingBuckets]) (by simp [inBucket])

/-- Counterexample to C2: on a one-row table with posting date 100 and no
`due_date` column, `_calculate_overdue` produces `days_overdue = 0`,
whereas the claimed fallback `max posting_date − (posting_date + 30)`
would give `−30`; the two disagree. -/
theorem spec_c2_counterexample :
    (calculateOverdue 0 false false [⟨100, 0, none⟩]).map (·.days_overdue) = [0] ∧
    agingSyntheticDaysOverdue (maxPostingDate [⟨100, 0, none⟩]) 100 = -30 ∧
    (calculateOverdue 0 false false [⟨100, 0, none⟩]).map (·.days_overdue)
      ≠ [agingSyntheticDaysOverdue (maxPostingDate [⟨100, 0, none⟩]) 100] := by
  refine ⟨by decide, by decide, by decide⟩

/-- C2 as amended: when the `due_date` column is absent entirely,
`DataNormalizer._calculate_overdue` sets `days_overdue = 0` and
`is_overdue = False` on every row (with an info log, no fallback); the
`posting_date + 30` synthetic due date lives instead in
`AgingAnalyzer._assign_aging_buckets`, which computes
`days_overdue = current_date − (posting_date + 30)` (with a warning) only
when the frame it receives lacks a `days_overdue` column and has no usable
`due_date` data. -/
theorem spec_c2_amended (threshold : ℤ) (hasOpen : Bool)
    (rows : List OverdueRow) (currentDate postingDate : ℤ) :
    calculateOverdue threshold false hasOpen rows
      = rows.map (fun _ => { days_overdue := 0, is_overdue := false }) ∧
    agingSyntheticDaysOverdue currentDate postingDate
      = currentDate - postingDate - 30 := by
  constructor
  · unfold calculateOverdue
    rw [if_pos rfl]
  · unfold agingSyntheticDaysOverdue
    ring

/-- Mapping table for the C1 counterexample: a mapping entry whose bucket
is the literal string `"Unmapped"`. -/
def c1Mapping : List MappingRow := [⟨"100", "Unmapped", "Revenue"⟩]

/-- Transaction table for the C1 counterexample: one row referencing that
mapping entry. -/
def c1Trans : List TransRow := [⟨"100"⟩]

/-- Counterexample to C1: the gl_account `"100"` occurs as a key of the
mapping table, yet the merged row has `is_mapped = false`, because
`_merge_mapping` computes `is_mapped` as `bucket != 'Unmapped'` and this
mapping entry's bucket is the literal string `"Unmapped"`; so `is_mapped`
is not equivalent to key membership. -/
theorem spec_c1_counterexample :
    occursInMapping c1Mapping "100" = true ∧
    (mergeMapping c1Mapping c1Trans).map (·.gl_account) = ["100"] ∧
    (mergeMapping c1Mapping c1Trans).map (·.is_mapped) = [false] := by
  refine ⟨by decide, by decide, by decide⟩

/-- C1 as amended: provided no mapping entry's bucket is the literal
string `"Unmapped"`, every canonical row produced by `_merge_mapping` has
`is_mapped` true exactly when its gl_account occurs as a key of the
mapping table, and every row whose gl_account does not occur there carries
`bucket = "Unmapped"` and `type = "Other"`. -/
theorem spec_c1_amended (mapping : List MappingRow) (ts : List TransRow)
    (hb : ∀ r ∈ mapping, r.bucket ≠ "Unmapped") :
    ∀ c ∈ mergeMapping mapping ts,
      (c.is_mapped = occursInMapping mapping c.gl_account) ∧
      (occursInMapping mapping c.gl_account = false →
        c.bucket = "Unmapped" ∧ c.type = "Other") := by
  intro c hc
  rcases List.mem_map.mp hc with ⟨t, _, rfl⟩
  unfold mergeMappingRow
  rcases hdict : mappingDict mapping t.gl_account with _ | r
  · have hocc : occursInMapping mapping t.gl_account = false :=
      (mappingDict_eq_none_iff mapping t.gl_account).mp hdict
    simp [hdict, hocc]
  · obtain ⟨hmem, _⟩ := mappingDict_mem hdict
    have hocc : occursInMapping mapping t.gl_account = true := by
      cases hoc : occursInMapping mapping t.gl_account with
      | false =>
          have hnone : mappingDict mapping t.gl_account = none :=
            (mappingDict_eq_none_iff mapping t.gl_account).mpr hoc
          rw [hnone] at hdict
          cases hdict
      | true => rfl
    have hbr : r.bucket ≠ "Unmapped" := hb r hmem
    simp [hdict, hocc, hbr]

/-- Mapping table for the C1 witness (from the repository's test
fixtures). -/
def w1Mapping : List MappingRow :=
  [⟨"400000", "Revenue - Product A", "Revenue"⟩]

/-- Witness for C1 as amended: on the fixture mapping (whose bucket is not
`"Unmapped"`), the merged row for gl_account `"400000"` has `is_mapped`
equal to its key membership. -/
theorem spec_c1_witness :
    (∀ r ∈ w1Mapping, r.bucket ≠ "Unmapped") ∧
    (mergeMappingRow w1Mapping ⟨"400000"⟩).is_mapped
      = occursInMapping w1Mapping (mergeMappingRow w1Mapping ⟨"400000"⟩).gl_account :=
  ⟨by decide,
    ((spec_c1_amended w1Mapping [⟨"400000"⟩] (by decide)) _
      (by simp [mergeMapping])).1⟩

/-- Boolean key test used to state the deduplication property. -/
def keyIs (k : String × String) (x : Anom) : Bool := anomKey x = k

/-- After the scan, a key already in `seen` never occurs in the output. -/
lemma dedupScan_filter_seen (l : List Anom) (seen : List (String × String))
    (k : String × String) (hk : k ∈ seen) :
    (dedupScan seen l).filter (keyIs k) = [] := by
  induction l generalizing seen with
  | nil => rfl
  | cons a rest ih =>
      unfold dedupScan
      by_cases hs : anomKey a ∈ seen
      · rw [if_pos hs]
        exact ih seen hk
      · rw [if_neg hs]
        have hak : keyIs k a = false := by
          have : anomKey a ≠ k := fun he => hs (he ▸ hk)
          simp [keyIs, this]
        rw [List.filter_cons_of_neg (by rw [hak]; exact Bool.false_ne_true)]
        exact ih (anomKey a :: seen) (List.mem_cons_of_mem _ hk)

/-- For an unseen key, the scan keeps exactly the first record with that
key: the output's key-filter is the one-element prefix of the input's
key-filter. -/
lemma dedupScan_filter_not_seen (l : List Anom) (seen : List (String × String))
    (k : String × String) (hk : k ∉ seen) :
    (dedupScan seen l).filter (keyIs k) = (l.filter (keyIs k)).take 1 := by
  induction l generalizing seen with
  | nil => rfl
  | cons a rest ih =>
      unfold dedupScan
      by_cases hs : anomKey a ∈ seen
      · rw [if_pos hs]
        have hak : keyIs k a = false := by
          have : anomKey a ≠ k := fun he => hk (he ▸ hs)
          simp [keyIs, this]
        rw [List.filter_cons_of_neg (by rw [hak]; exact Bool.false_ne_true)]
        exact ih seen hk
      · rw [if_neg hs]
        by_cases hak : anomKey a = k
        · have hkt : keyIs k a = true := by simp [keyIs, hak]
          rw [List.filter_cons_of_pos hkt, List.filter_cons_of_pos hkt]
          rw [dedupScan_filter_seen rest (anomKey a :: seen) k
            (hak ▸ List.mem_cons_self _ _)]
          rfl
        · have hkf : keyIs k a = false := by simp [keyIs, hak]
          rw [List.filter_cons_of_neg (by rw [hkf]; exact Bool.false_ne_true),
            List.filter_cons_of_neg (by rw [hkf]; exact Bool.false_ne_true)]
          exact ih (anomKey a :: seen)
            (fun hmem => (List.mem_cons.mp hmem).elim (fun he => hak he.symm)
              hk)

/-- Two anomalies with the same `(date, bucket)` key that are ordered by
the deduplication sort relation are ordered by `severity_order`. -/
lemma dedupRel_sev {a b : Anom} (hk : anomKey a = anomKey b)
    (hr : dedupSortRel a b) :
    severityOrder a.severity ≤ severityOrder b.severity := by
  have hd : a.date = b.date := congrArg Prod.fst hk
  have hbk : a.bucket = b.bucket := congrArg Prod.snd hk
  unfold dedupSortRel dedupSortKey at hr
  rw [Prod.Lex.le_iff] at hr
  rcases hr with h | ⟨_, h2⟩
  · rw [hd] at h
    exact absurd h (lt_irrefl _)
  · rw [Prod.Lex.le_iff] at h2
    rcases h2 with h | ⟨_, h3⟩
    · rw [hbk] at h
      exact absurd h (lt_irrefl _)
    · exact h3

/-- C5: if a `(period, bucket)` key is flagged by two or more methods —
two anomalies in the detector output share the key but come from distinct
methods — then after `_deduplicate_anomalies` exactly one anomaly with
that key remains, it is one of the input records for that key, and its
severity is maximal (its `severity_order` is minimal, i.e. high beats
medium beats low) among all of the key's flags. -/
theorem spec_c5_dedup_max_severity (l : List Anom) (a b : Anom)
    (ha : a ∈ l) (_hb : b ∈ l) (_hkey : anomKey b = anomKey a)
    (_hm : a.method ≠ b.method) :
    ∃ c, (deduplicateAnomalies l).filter (keyIs (anomKey a)) = [c] ∧
      c ∈ l ∧ anomKey c = anomKey a ∧
      ∀ x ∈ l, anomKey x = anomKey a →
        severityOrder c.severity ≤ severityOrder x.severity := by
  have hperm : List.Perm (List.insertionSort dedupSortRel l) l :=
    List.perm_insertionSort _ l
  have hsorted : List.Sorted dedupSortRel (List.insertionSort dedupSortRel l) :=
    List.sorted_insertionSort _ l
  have hfil : (deduplicateAnomalies l).filter (keyIs (anomKey a))
      = ((List.insertionSort dedupSortRel l).filter (keyIs (anomKey a))).take 1 :=
    dedupScan_filter_not_seen _ [] _ (List.not_mem_nil _)
  have hamem : a ∈ List.insertionSort dedupSortRel l := hperm.mem_iff.mpr ha
  have hafil : a ∈ (List.insertionSort dedupSortRel l).filter (keyIs (anomKey a)) :=
    List.mem_filter.mpr ⟨hamem, by simp [keyIs]⟩
  obtain ⟨c, rest, hcr⟩ :
      ∃ c rest, (List.insertionSort dedupSortRel l).filter (keyIs (anomKey a))
        = c :: rest := by
    cases hfe : (List.insertionSort dedupSortRel l).filter (keyIs (anomKey a)) with
    | nil =>
        rw [hfe] at hafil
        cases hafil
    | cons c rest => exact ⟨c, rest, rfl⟩
  have hcf : c ∈ (List.insertionSort dedupSortRel l).filter (keyIs (anomKey a)) :=
    hcr ▸ List.mem_cons_self c rest
  have hck : anomKey c = anomKey a := by
    have := (List.mem_filter.mp hcf).2
    simpa [keyIs] using this
  have hsf : List.Pairwise dedupSortRel
      ((List.insertionSort dedupSortRel l).filter (keyIs (anomKey a))) :=
    List.Pairwise.filter _ hsorted
  refine ⟨c, ?_, ?_, hck, ?_⟩
  · rw [hfil, hcr]
    rfl
  · exact hperm.mem_iff.mp (List.mem_of_mem_filter hcf)
  · intro x hx hxk
    have hxf : x ∈ (List.insertionSort dedupSortRel l).filter (keyIs (anomKey a)) :=
      List.mem_filter.mpr ⟨hperm.mem_iff.mpr hx, by simp [keyIs, hxk]⟩
    rw [hcr] at hxf
    rcases List.mem_cons.mp hxf with rfl | hxr
    · exact le_refl _
    · have hrel : dedupSortRel c x :=
        (List.pairwise_cons.mp (hcr ▸ hsf)).1 x hxr
      exact dedupRel_sev (hck.trans hxk.symm) hrel

/-- Concrete anomaly for the C5 witness: the z-score flag. -/
def w5a : Anom :=
  ⟨"2024-12", "Sales", "Revenue", 13000, 2000, 11000, 550, Sev.low, "zscore"⟩

/-- Concrete anomaly for the C5 witness: a MAD flag on the same key with
higher severity. -/
def w5b : Anom :=
  ⟨"2024-12", "Sales", "Revenue", 13000, 1000, 12000, 1200, Sev.high, "mad"⟩

/-- Witness for C5 on a concrete two-method flag list. -/
theorem spec_c5_witness :
    ∃ c, (deduplicateAnomalies [w5a, w5b]).filter (keyIs (anomKey w5a)) = [c] ∧
      c ∈ [w5a, w5b] ∧ anomKey c = anomKey w5a ∧
      ∀ x ∈ [w5a, w5b], anomKey x = anomKey w5a →
        severityOrder c.severity ≤ severityOrder x.severity :=
  spec_c5_dedup_max_severity [w5a, w5b] w5a w5b (by decide) (by decide)
    (by decide) (by decide)

/-- The C3 scenario's monthly table: one bucket whose 12 monthly sums are
all equal except a single month raised far above the rest. -/
def c3Table : List MRow :=
  [⟨"2024-01", "Sales", "Revenue", 1000⟩, ⟨"2024-02", "Sales", "Revenue", 1000⟩,
   ⟨"2024-03", "Sales", "Revenue", 1000⟩, ⟨"2024-04", "Sales", "Revenue", 1000⟩,
   ⟨"2024-05", "Sales", "Revenue", 1000⟩, ⟨"2024-06", "Sales", "Revenue", 1000⟩,
   ⟨"2024-07", "Sales", "Revenue", 1000⟩, ⟨"2024-08", "Sales", "Revenue", 1000⟩,
   ⟨"2024-09", "Sales", "Revenue", 1000⟩, ⟨"2024-10", "Sales", "Revenue", 1000⟩,
   ⟨"2024-11", "Sales", "Revenue", 1000⟩, ⟨"2024-12", "Sales", "Revenue", 13000⟩]

unseal Rat.add Rat.mul Rat.inv Rat.sub in
/-- Counterexample to C3: on the scenario input (11 months at 1000, one
month at 13000 — more than 10 sample standard deviations above the other
months' value), the z-score detector flags exactly that month with method
`'zscore'` but with severity `low` (the sample z-score is 11/√12 ≈ 3.18,
which can never exceed 3.5, let alone 4); the MAD detector flags nothing
at all, because the median absolute deviation of 11 equal values and one
outlier is 0 and zero-MAD buckets are skipped; and the single anomaly
surviving deduplication has severity `low`, not `high`. -/
theorem spec_c3_counterexample :
    (groupDetect (detectZscoreBucket 3) c3Table).map
      (fun a => (a.date, a.method, a.severity)) = [("2024-12", "zscore", Sev.low)] ∧
    groupDetect (detectMadBucket (7/2)) c3Table = [] ∧
    (detectAll 3 (7/2) c3Table).map (·.severity) = [Sev.low] ∧
    Sev.low ≠ Sev.high := by
  refine ⟨by decide, by decide, by decide, by decide⟩

unseal Rat.add Rat.mul Rat.inv Rat.sub in
/-- C3 as amended: on the scenario input the z-score detector flags exactly
the raised month, with method `'zscore'`, expected value the sample mean
2000 and severity `low`; the MAD detector skips the bucket (MAD = 0); after
deduplication exactly one anomaly remains for that (period, bucket), with
severity `low`.  Moreover severity `high` (or even `medium`) is impossible
in this scenario no matter how far the month is raised: for any bucket
series of at most 13 monthly rows, every anomaly the z-score detector
emits has severity `low`, because a single sample's squared deviation is
at most the total sum of squares, so `z² ≤ n − 1 ≤ 12 < 3.5²`. -/
theorem spec_c3_amended :
    (detectAll 3 (7/2) c3Table =
      [⟨"2024-12", "Sales", "Revenue", 13000, 2000, 11000, 550,
        Sev.low, "zscore"⟩] ∧
     groupDetect (detectMadBucket (7/2)) c3Table = []) ∧
    (∀ (thr : ℚ) (rows : List MRow), rows.length ≤ 13 →
      ∀ a ∈ detectZscoreBucket thr rows, a.severity = Sev.low) := by
  refine ⟨⟨by decide, by decide⟩, ?_⟩
  intro thr rows hlen a ha
  unfold detectZscoreBucket at ha
  dsimp only at ha
  split at ha
  · cases ha
  rename_i h6
  split at ha
  · cases ha
  rename_i hss
  rcases List.mem_map.mp ha with ⟨r, hrf, rfl⟩
  have hr : r ∈ rows := List.mem_of_mem_filter hrf
  dsimp only
  set mean := ((rows.map (·.amount)).sum) / (rows.length : ℚ) with hmean
  set ss := (rows.map (fun x => (x.amount - mean) ^ 2)).sum with hssdef
  have hnn : ∀ q ∈ rows.map (fun x => (x.amount - mean) ^ 2), 0 ≤ q := by
    intro q hq
    rcases List.mem_map.mp hq with ⟨x, _, rfl⟩
    positivity
  have hsspos : 0 < ss := by
    rcases lt_or_eq_of_le (List.sum_nonneg hnn) with h | h
    · exact h
    · exact absurd h.symm hss
  have hdev : (r.amount - mean) ^ 2 ≤ ss :=
    List.single_le_sum hnn _ (List.mem_map_of_mem _ hr)
  have hn13 : ((rows.length : ℚ) - 1) ≤ 12 := by
    have : (rows.length : ℚ) ≤ 13 := by exact_mod_cast hlen
    linarith
  have hn0 : (0 : ℚ) ≤ (rows.length : ℚ) - 1 := by
    have h6' : 6 ≤ rows.length := not_lt.mp h6
    have : (6 : ℚ) ≤ (rows.length : ℚ) := by exact_mod_cast h6'
    linarith
  have hbound : (r.amount - mean) ^ 2 * ((rows.length : ℚ) - 1) ≤ 12 * ss := by
    calc (r.amount - mean) ^ 2 * ((rows.length : ℚ) - 1)
        ≤ ss * ((rows.length : ℚ) - 1) := by
          exact mul_le_mul_of_nonneg_right hdev hn0
      _ ≤ ss * 12 := by
          exact mul_le_mul_of_nonneg_left hn13 hsspos.le
      _ = 12 * ss := by ring
  unfold zSeverity
  rw [if_neg (by nlinarith), if_neg (by nlinarith)]

unseal Rat.add Rat.mul Rat.inv Rat.sub in
/-- Witness for the general part of the amended C3: the anomaly the
z-score detector emits on the scenario table indeed has severity `low`. -/
theorem spec_c3_witness :
    (⟨"2024-12", "Sales", "Revenue", 13000, 2000, 11000, 550,
      Sev.low, "zscore"⟩ : Anom).severity = Sev.low :=
  spec_c3_amended.2 3 c3Table (by decide) _ (by decide)
